import Mathlib

/-!
Verification of the batch-aggregation core of the squadprops front-end
(leaderboard page and history page) against its natural-language
specification.

The development shallowly embeds the two pages' data-loading logic:

* robustFetch — the retry helper shared by both pages: a loop of at most
  retries attempts; every attempt is preceded by a fixed delay of delayMs
  milliseconds; a failed non-final attempt is followed by an exponential
  backoff of delayMs * 2 ^ i milliseconds; the failure of the final
  attempt is rethrown.  In JavaScript, falling through the loop (possible
  only when retries is not positive) resolves with undefined, which the
  embedding renders as Except.ok none.

* loadLeaderboard — fetch the props counter, scan the last
  min(10, total) props, collect the giver and receiver of each
  successfully fetched prop into an insertion-ordered deduplication set,
  fetch per-user stats for each unique user, sort by propsReceived
  descending (JavaScript Array.prototype.sort is stable), and assign
  1-based ranks.

* loadHistory — in received mode fetch the user's history id list, take
  the last 20 ids, reverse them, and fetch each prop; in given and all
  modes fetch the props counter and scan the last min(50, total) props in
  descending index order, filtering by the signed-in user's address.

Remote calls are modelled by an Oracle of deterministic, attempt-indexed
functions returning the already-decoded payload: the nesting of
cvToJSON and the field extraction guards collapse to Option results
(none standing for a missing or malformed payload).  A robustFetch
result of Except.ok none (undefined) would make cvToJSON throw at the
call sites; per-index and per-user call sites catch that throw and skip,
while the two initial call sites let it escape, which the embedding
renders as an error value.  Asynchrony is irrelevant to the properties
checked here because every call is awaited sequentially.
-/

/-- Outcome of one prop lookup after decoding: giver, receiver, amount,
message and timestamp fields of the tuple. -/
structure PropData where
  giver : String
  receiver : String
  amount : Nat
  message : String
  timestamp : Nat
deriving DecidableEq, Repr

/-- Outcome of one user-stats lookup after decoding. -/
structure StatsData where
  propsReceived : Nat
  propsGiven : Nat
deriving DecidableEq, Repr

/-- One entry of the userStats accumulator of loadLeaderboard. -/
structure UserStat where
  address : String
  propsReceived : Nat
  propsGiven : Nat
deriving DecidableEq, Repr

/-- One row of the leaderboard report (UserStat plus its 1-based rank). -/
structure LeaderboardUser where
  address : String
  propsReceived : Nat
  propsGiven : Nat
  rank : Nat
deriving DecidableEq, Repr

/-- The three tabs of the history page. -/
inductive TabType where
  | all
  | received
  | given
deriving DecidableEq, Repr

/-- Tag of a history row: received or given. -/
inductive ItemType where
  | received
  | given
deriving DecidableEq, Repr

/-- One row of the history report.  The source fields named from and to
are renamed fromAddr and toAddr because from is a Lean keyword. -/
structure HistoryItem where
  id : Nat
  type : ItemType
  fromAddr : String
  toAddr : String
  amount : Nat
  message : String
  blockHeight : Nat
deriving DecidableEq, Repr

/-- The remote read-only call surface both pages consume, decoded.  Each
function takes the attempt index robustFetch invokes it with, so a call
may fail on some attempts and succeed on others.
getCurrentPropsId yields some n when counterJSON.value is present
(parsed total n) and none when it is falsy (total treated as 0).
getPropsById i yields some pd when the propData extraction succeeds and
none when the payload is missing or malformed.
getUserStats a yields some s when statsJSON.value.value is present.
getUserHistory a yields the decoded list of history ids. -/
structure Oracle where
  getCurrentPropsId : Nat → Except String (Option Nat)
  getPropsById : Nat → Nat → Except String (Option PropData)
  getUserStats : String → Nat → Except String (Option StatsData)
  getUserHistory : String → Nat → Except String (List Nat)

/-- Body of the robustFetch loop, one call per remaining iteration.
fn is the wrapped operation, indexed by the attempt counter i; fuel is
the number of loop iterations left, so the loop guard i < retries of the
source corresponds to fuel being positive (the callers maintain
i + fuel = retries).  The result carries the value (ok none models the
undefined of falling through the loop), the number of times fn was
invoked, and the list of delays slept in order: delayMs before every
attempt, and delayMs * 2 ^ i after a failed non-final attempt i. -/
def robustFetchGo (fn : Nat → Except ε α) (retries delayMs : Nat) :
    Nat → Nat → Except ε (Option α) × Nat × List Nat
  | _, 0 => (Except.ok none, 0, [])
  | i, fuel + 1 =>
    match fn i with
    | Except.ok v => (Except.ok (some v), 1, [delayMs])
    | Except.error e =>
      if i = retries - 1 then
        (Except.error e, 1, [delayMs])
      else
        let r := robustFetchGo fn retries delayMs (i + 1) fuel
        (r.1, r.2.1 + 1, delayMs :: delayMs * 2 ^ i :: r.2.2)

/-- The retry helper shared by both pages: result component. -/
def robustFetch (fn : Nat → Except ε α) (retries : Nat := 3)
    (delayMs : Nat := 500) : Except ε (Option α) :=
  (robustFetchGo fn retries delayMs 0 retries).1

/-- Number of times robustFetch invokes the wrapped operation. -/
def robustFetchCount (fn : Nat → Except ε α) (retries : Nat := 3)
    (delayMs : Nat := 500) : Nat :=
  (robustFetchGo fn retries delayMs 0 retries).2.1

/-- The delays robustFetch sleeps, in order. -/
def robustFetchDelays (fn : Nat → Except ε α) (retries : Nat := 3)
    (delayMs : Nat := 500) : List Nat :=
  (robustFetchGo fn retries delayMs 0 retries).2.2

/-- The props lookup wrapped in robustFetch, as seen by the call sites
that guard it with try/catch and a propData check: a thrown error
(exhausted retries), an undefined result (making cvToJSON throw inside
the local try) and a missing or malformed payload all collapse to none;
a decoded tuple yields some. -/
def fetchProp (o : Oracle) (i : Nat) : Option PropData :=
  match robustFetch (o.getPropsById i) 3 500 with
  | Except.ok (some (some pd)) => some pd
  | _ => none

/-- The user-stats lookup wrapped in robustFetch, guarded the same way
inside loadLeaderboard. -/
def fetchStats (o : Oracle) (addr : String) : Option StatsData :=
  match robustFetch (o.getUserStats addr) 3 500 with
  | Except.ok (some (some s)) => some s
  | _ => none

/-- Insertion into the JavaScript Set of unique users: Sets preserve
insertion order and ignore a repeated add. -/
def addUnique (l : List String) (x : String) : List String :=
  if x ∈ l then l else l ++ [x]

/-- The scan window both pages compute from a hard-coded cap and the
total count: limit = min(cap, total), startIndex = max(0, total - limit)
(truncated Nat subtraction is exactly the surrounding Math.max(0, _)),
iterated as startIndex, startIndex + 1, ..., total - 1. -/
def scanWindow (cap total : Nat) : List Nat :=
  let limit := min cap total
  let startIndex := total - limit
  List.range' startIndex (total - startIndex)

/-- The prop-scanning loop of loadLeaderboard over a list of indices:
each successfully fetched prop contributes its giver and receiver (in
that order) to the insertion-ordered deduplication set; a failed or
malformed fetch is skipped. -/
def scanUsers (o : Oracle) (ws : List Nat) : List String :=
  ws.foldl
    (fun acc i =>
      match fetchProp o i with
      | some pd => addUnique (addUnique acc pd.giver) pd.receiver
      | none => acc)
    []

/-- The stats loop of loadLeaderboard: one guarded lookup per user in
order; a failed or empty lookup is skipped. -/
def leaderboardUserStats (o : Oracle) (users : List String) : List UserStat :=
  users.foldl
    (fun acc addr =>
      match fetchStats o addr with
      | some s => acc ++ [⟨addr, s.propsReceived, s.propsGiven⟩]
      | none => acc)
    []

/-- The comparator (a, b) => b.propsReceived - a.propsReceived of the
source orders a no later than b exactly when b.propsReceived is at most
a.propsReceived. -/
def byReceivedDesc (a b : UserStat) : Bool :=
  decide (b.propsReceived ≤ a.propsReceived)

/-- The sort step of loadLeaderboard.  JavaScript Array.prototype.sort
is required to be stable, so it is embedded as a stable merge sort with
the comparator above. -/
def sortByReceived (l : List UserStat) : List UserStat :=
  l.mergeSort byReceivedDesc

/-- The final map of loadLeaderboard: attach rank = index + 1. -/
def assignRanks (l : List UserStat) : List LeaderboardUser :=
  l.mapIdx fun idx u => ⟨u.address, u.propsReceived, u.propsGiven, idx + 1⟩

/-- The users the prop scan of loadLeaderboard accumulates, given the
decoded total. -/
def leaderboardUniqueUsers (o : Oracle) (total : Nat) : List String :=
  scanUsers o (scanWindow 10 total)

/-- The aggregation performed by loadLeaderboard, up to the point where
the result is handed to setTopUsers.  An error of the initial counter
fetch reaches the outer catch, rendered as Except.error; the early
returns on a zero total or an empty user set leave the report empty. -/
def loadLeaderboard (o : Oracle) : Except String (List LeaderboardUser) :=
  match robustFetch o.getCurrentPropsId 3 500 with
  | Except.error e => Except.error e
  | Except.ok none => Except.error "TypeError"
  | Except.ok (some counterVal) =>
    let totalProps := counterVal.getD 0
    if totalProps = 0 then Except.ok []
    else
      let uniqueUsers := leaderboardUniqueUsers o totalProps
      if uniqueUsers = [] then Except.ok []
      else
        Except.ok (assignRanks (sortByReceived (leaderboardUserStats o uniqueUsers)))

/-- The userStats list loadLeaderboard feeds to its sort, for any
oracle; empty when the run ends before the stats loop. -/
def leaderboardPreSort (o : Oracle) : List UserStat :=
  match robustFetch o.getCurrentPropsId 3 500 with
  | Except.ok (some counterVal) =>
    leaderboardUserStats o (leaderboardUniqueUsers o (counterVal.getD 0))
  | _ => []

/-- The indices for which loadLeaderboard issues a per-index
robustFetch lookup: none when the counter fetch fails or the total is
zero (early return before the loop), otherwise one lookup per window
index, in ascending order. -/
def leaderboardIndexCalls (o : Oracle) : List Nat :=
  match robustFetch o.getCurrentPropsId 3 500 with
  | Except.ok (some counterVal) =>
    let totalProps := counterVal.getD 0
    if totalProps = 0 then [] else scanWindow 10 totalProps
  | _ => []

/-- The addresses for which loadLeaderboard issues a per-user stats
robustFetch lookup: one per element of the deduplicated user list, in
order, and none when the run ends before the stats loop. -/
def leaderboardStatsCalls (o : Oracle) : List String :=
  match robustFetch o.getCurrentPropsId 3 500 with
  | Except.ok (some counterVal) =>
    let totalProps := counterVal.getD 0
    if totalProps = 0 then [] else leaderboardUniqueUsers o totalProps
  | _ => []

/-- JavaScript slice(-n): the last min(n, length) elements. -/
def sliceLast (n : Nat) (l : List α) : List α :=
  l.drop (l.length - n)

/-- The history row pushed for prop id i with tag t and payload pd. -/
def mkHistoryItem (i : Nat) (t : ItemType) (pd : PropData) : HistoryItem :=
  ⟨i, t, pd.giver, pd.receiver, pd.amount, pd.message, pd.timestamp⟩

/-- The body of the given/all scan of loadHistory for one successfully
fetched prop: keep it, tagged, when the signed-in user matches the
required identity field, else drop it. -/
def historyScanStep (userAddress : String) (activeTab : TabType)
    (items : List HistoryItem) (i : Nat) (pd : PropData) : List HistoryItem :=
  let isGiver := pd.giver = userAddress
  let isReceiver := pd.receiver = userAddress
  if activeTab = TabType.given ∧ isGiver then
    items ++ [mkHistoryItem i ItemType.given pd]
  else if activeTab = TabType.all ∧ (isGiver ∨ isReceiver) then
    items ++ [mkHistoryItem i (if isReceiver then ItemType.received else ItemType.given) pd]
  else
    items

/-- The given/all scanning loop of loadHistory over a list of indices
(the callers pass the window in descending order): a failed or
malformed fetch is skipped, a successful one goes through
historyScanStep. -/
def historyScanItems (o : Oracle) (userAddress : String) (activeTab : TabType)
    (ws : List Nat) : List HistoryItem :=
  ws.foldl
    (fun items i =>
      match fetchProp o i with
      | some pd => historyScanStep userAddress activeTab items i pd
      | none => items)
    []

/-- The received-mode loop of loadHistory over the already sliced and
reversed id list: each successfully fetched prop becomes a row tagged
received, with no comparison of the user against its fields. -/
def historyReceivedItems (o : Oracle) (ids : List Nat) : List HistoryItem :=
  ids.foldl
    (fun items id =>
      match fetchProp o id with
      | some pd => items ++ [mkHistoryItem id ItemType.received pd]
      | none => items)
    []

/-- The aggregation performed by loadHistory, up to the point where the
result is handed to setHistoryItems.  The received tab fetches the
user's history id list and walks its last 20 ids most-recent-first; the
given and all tabs fetch the counter and walk the last min(50, total)
prop ids in descending order.  An error of the respective initial fetch
reaches the outer catch, rendered as Except.error. -/
def loadHistory (o : Oracle) (userAddress : String) (activeTab : TabType) :
    Except String (List HistoryItem) :=
  match activeTab with
  | TabType.received =>
    match robustFetch (o.getUserHistory userAddress) 3 500 with
    | Except.error e => Except.error e
    | Except.ok none => Except.error "TypeError"
    | Except.ok (some historyIds) =>
      let recentIds := (sliceLast 20 historyIds).reverse
      Except.ok (historyReceivedItems o recentIds)
  | tab =>
    match robustFetch o.getCurrentPropsId 3 500 with
    | Except.error e => Except.error e
    | Except.ok none => Except.error "TypeError"
    | Except.ok (some counterVal) =>
      let totalProps := counterVal.getD 0
      Except.ok (historyScanItems o userAddress tab ((scanWindow 50 totalProps).reverse))

/-- The prop ids for which loadHistory issues a per-id robustFetch
lookup: the sliced and reversed history list in received mode, the
descending window in given/all mode, and none when the initial fetch of
the mode fails. -/
def historyIndexCalls (o : Oracle) (userAddress : String) (activeTab : TabType) :
    List Nat :=
  match activeTab with
  | TabType.received =>
    match robustFetch (o.getUserHistory userAddress) 3 500 with
    | Except.ok (some historyIds) => (sliceLast 20 historyIds).reverse
    | _ => []
  | _ =>
    match robustFetch o.getCurrentPropsId 3 500 with
    | Except.ok (some counterVal) => (scanWindow 50 (counterVal.getD 0)).reverse
    | _ => []

/-- Unfolding lemma: when the wrapped operation fails k times from
attempt i onward and then succeeds, the loop body returns the success,
having invoked the operation k + 1 times, sleeping delayMs before every
attempt and delayMs * 2 ^ j after failed attempt j. -/
theorem robustFetchGo_ok {ε α : Type} (fn : Nat → Except ε α)
    (retries delayMs : Nat) (v : α) :
    ∀ (k i fuel : Nat), i + fuel = retries → k < fuel →
      (∀ j, j < k → ∃ e, fn (i + j) = Except.error e) →
      fn (i + k) = Except.ok v →
      robustFetchGo fn retries delayMs i fuel =
        (Except.ok (some v), k + 1,
          delayMs :: (List.range' i k).flatMap fun j => [delayMs * 2 ^ j, delayMs]) := by
  intro k
  induction k with
  | zero =>
    intro i fuel hif hk hf hok
    obtain ⟨f, rfl⟩ : ∃ f, fuel = f + 1 := ⟨fuel - 1, by omega⟩
    rw [Nat.add_zero] at hok
    simp [robustFetchGo, hok]
  | succ k ih =>
    intro i fuel hif hk hf hok
    obtain ⟨f, rfl⟩ : ∃ f, fuel = f + 1 := ⟨fuel - 1, by omega⟩
    obtain ⟨e, he⟩ := hf 0 (Nat.succ_pos k)
    rw [Nat.add_zero] at he
    have hne : ¬ i = retries - 1 := by omega
    have hok2 : fn (i + 1 + k) = Except.ok v := by
      rw [show i + 1 + k = i + (k + 1) by omega]; exact hok
    have hf2 : ∀ j, j < k → ∃ e, fn (i + 1 + j) = Except.error e := by
      intro j hj
      have := hf (j + 1) (by omega)
      rwa [show i + (j + 1) = i + 1 + j by omega] at this
    have hrec := ih (i + 1) f (by omega) (by omega) hf2 hok2
    simp only [robustFetchGo, he, if_neg hne, hrec, List.range'_succ,
      List.flatMap_cons]
    simp

/-- Unfolding lemma: when the wrapped operation fails on every attempt,
the loop body runs through all fuel iterations, propagates the error of
the final attempt retries - 1, and sleeps delayMs before every attempt
and delayMs * 2 ^ j after every failed non-final attempt j. -/
theorem robustFetchGo_fail {ε α : Type} (fn : Nat → Except ε α)
    (retries delayMs : Nat) (errs : Nat → ε)
    (hf : ∀ j, fn j = Except.error (errs j)) :
    ∀ (fuel i : Nat), i + fuel = retries → 0 < fuel →
      robustFetchGo fn retries delayMs i fuel =
        (Except.error (errs (retries - 1)), fuel,
          delayMs :: (List.range' i (fuel - 1)).flatMap fun j => [delayMs * 2 ^ j, delayMs]) := by
  intro fuel
  induction fuel with
  | zero => intro i hif h0; omega
  | succ f ih =>
    intro i hif h0
    by_cases hfz : f = 0
    · subst hfz
      have hi : i = retries - 1 := by omega
      subst hi
      simp [robustFetchGo, hf]
    · have hne : ¬ i = retries - 1 := by omega
      have hrec := ih (i + 1) (by omega) (by omega)
      simp only [robustFetchGo, hf i, if_neg hne, hrec]
      have hf1 : f - 1 + 1 = f := by omega
      simp only [Nat.add_sub_cancel]
      rw [show List.range' i f = i :: List.range' (i + 1) (f - 1) by
        rw [← hf1, List.range'_succ, hf1]]
      simp

/-- C1: robustFetch with retry count R and base delay D, applied to an
operation that fails exactly k < R times and then succeeds, returns the
success result, invokes the operation exactly k + 1 times, and sleeps
D before attempt 0 and then D * 2 ^ j followed by D around each failed
attempt j (the delay before every attempt is D and the backoff after
failed attempt j is D * 2 ^ j); applied to an operation that always
fails, it invokes the operation exactly R times, propagates the error
of the final attempt R - 1, and sleeps the same schedule truncated at
the final attempt. -/
theorem robustFetch_retry_contract :
    (∀ (ε α : Type) (fn : Nat → Except ε α) (k R D : Nat) (v : α),
      k < R →
      (∀ j, j < k → ∃ e, fn j = Except.error e) →
      fn k = Except.ok v →
      robustFetch fn R D = Except.ok (some v) ∧
      robustFetchCount fn R D = k + 1 ∧
      robustFetchDelays fn R D =
        D :: (List.range k).flatMap fun j => [D * 2 ^ j, D]) ∧
    (∀ (ε α : Type) (fn : Nat → Except ε α) (errs : Nat → ε) (R D : Nat),
      0 < R →
      (∀ j, fn j = Except.error (errs j)) →
      robustFetch fn R D = Except.error (errs (R - 1)) ∧
      robustFetchCount fn R D = R ∧
      robustFetchDelays fn R D =
        D :: (List.range (R - 1)).flatMap fun j => [D * 2 ^ j, D]) := by
  constructor
  · intro ε α fn k R D v hkR hf hok
    have h := robustFetchGo_ok fn R D v k 0 R (by omega) hkR
      (by simpa using hf) (by simpa using hok)
    refine ⟨?_, ?_, ?_⟩
    · simp [robustFetch, h]
    · simp [robustFetchCount, h]
    · simp [robustFetchDelays, h, List.range_eq_range']
  · intro ε α fn errs R D hR hf
    have h := robustFetchGo_fail fn R D errs hf R 0 (by omega) hR
    refine ⟨?_, ?_, ?_⟩
    · simp [robustFetch, h]
    · simp [robustFetchCount, h]
    · simp [robustFetchDelays, h, List.range_eq_range']

/-- An operation that succeeds at once, for exercising the contract. -/
def fnAlwaysOk : Nat → Except String Nat := fun _ => Except.ok 7

/-- An operation that fails on every attempt. -/
def fnAlwaysBad : Nat → Except String Nat := fun _ => Except.error "boom"

/-- Witness for C1 at concrete inputs: an operation failing zero times
with R = 3, D = 500 succeeds after 1 attempt with the single delay 500;
an always-failing operation with R = 3, D = 500 errors after exactly 3
attempts with delays 500, 500, 500, 1000, 500. -/
theorem robustFetch_retry_contract_witness :
    (robustFetch fnAlwaysOk 3 500 = Except.ok (some 7) ∧
      robustFetchCount fnAlwaysOk 3 500 = 1 ∧
      robustFetchDelays fnAlwaysOk 3 500 = [500]) ∧
    (robustFetch fnAlwaysBad 3 500 = Except.error "boom" ∧
      robustFetchCount fnAlwaysBad 3 500 = 3 ∧
      robustFetchDelays fnAlwaysBad 3 500 = [500, 500, 500, 1000, 500]) := by
  constructor
  · have h := robustFetch_retry_contract.1 String Nat fnAlwaysOk 0 3 500 7
      (by omega) (fun j hj => absurd hj (Nat.not_lt_zero j)) rfl
    exact ⟨h.1, h.2.1, by rw [h.2.2]; rfl⟩
  · have h := robustFetch_retry_contract.2 String Nat fnAlwaysBad
      (fun _ => "boom") 3 500 (by omega) (fun _ => rfl)
    exact ⟨h.1, h.2.1, by rw [h.2.2]; rfl⟩

/-- C10: robustFetch with retry count 0 resolves with undefined
(rendered ok none) without invoking the operation, without sleeping and
without raising an error.  In the source a non-positive retry count
skips the loop the same way, since the guard i < retries fails at i = 0;
the Nat embedding maps every non-positive count to 0. -/
theorem robustFetch_zero_retries {ε α : Type} (fn : Nat → Except ε α) (D : Nat) :
    robustFetch fn 0 D = Except.ok none ∧
    robustFetchCount fn 0 D = 0 ∧
    robustFetchDelays fn 0 D = [] :=
  ⟨rfl, rfl, rfl⟩

/-- C3: for every window cap and total count, the scan window is
exactly the integer interval from max(0, T - limit) (inclusive) to T
(exclusive), its size is exactly min(limit, T), and the per-index
lookups the two aggregators issue are exactly that window (ascending
for the leaderboard, descending for the history scan), hence never more
than min(limit, T) of them. -/
theorem scanWindow_spec (limit T : Nat) :
    (scanWindow limit T).length = min limit T ∧
    (∀ i : Nat, i ∈ scanWindow limit T ↔
      max 0 ((T : Int) - (limit : Int)) ≤ (i : Int) ∧ (i : Int) < (T : Int)) ∧
    (∀ (o : Oracle) (v : Option Nat),
      robustFetch o.getCurrentPropsId 3 500 = Except.ok (some v) →
      v.getD 0 = T →
      leaderboardIndexCalls o = scanWindow 10 T ∧
      (leaderboardIndexCalls o).length ≤ min 10 T ∧
      (∀ (u : String) (tab : TabType), tab ≠ TabType.received →
        historyIndexCalls o u tab = (scanWindow 50 T).reverse ∧
        (historyIndexCalls o u tab).length ≤ min 50 T)) := by
  refine ⟨?_, ?_, ?_⟩
  · simp only [scanWindow, List.length_range']
    omega
  · intro i
    simp only [scanWindow, List.mem_range']
    constructor
    · rintro ⟨k, hk, rfl⟩
      omega
    · intro h
      exact ⟨i - (T - min limit T), by omega, by omega⟩
  · intro o v hv hT
    have hlead : leaderboardIndexCalls o = scanWindow 10 T := by
      unfold leaderboardIndexCalls
      rw [hv]
      dsimp only
      rw [hT]
      by_cases h0 : T = 0
      · subst h0
        simp [scanWindow]
      · rw [if_neg h0]
    have hhist : ∀ (u : String) (tab : TabType), tab ≠ TabType.received →
        historyIndexCalls o u tab = (scanWindow 50 T).reverse := by
      intro u tab htab
      cases tab with
      | received => exact absurd rfl htab
      | all =>
        unfold historyIndexCalls
        rw [hv]
        dsimp only
        rw [hT]
      | given =>
        unfold historyIndexCalls
        rw [hv]
        dsimp only
        rw [hT]
    refine ⟨hlead, ?_, fun u tab htab => ⟨hhist u tab htab, ?_⟩⟩
    · rw [hlead]
      simp only [scanWindow, List.length_range']
      omega
    · rw [hhist u tab htab]
      simp only [scanWindow, List.length_reverse, List.length_range']
      omega

/-- A fixed prop payload for concrete runs: giver A, receiver B. -/
def pdAB : PropData := ⟨"A", "B", 1, "gg", 100⟩

/-- Concrete oracle: total 3 props, the lookup of prop 1 always fails,
props 0 and 2 decode to pdAB, stats and history lookups succeed. -/
def oracleMain : Oracle where
  getCurrentPropsId := fun _ => Except.ok (some 3)
  getPropsById := fun i _ =>
    if i = 1 then Except.error "down" else Except.ok (some pdAB)
  getUserStats := fun _ _ => Except.ok (some ⟨2, 1⟩)
  getUserHistory := fun _ _ => Except.ok [0, 1, 2]

/-- Concrete oracle whose every call always fails. -/
def oracleFail : Oracle where
  getCurrentPropsId := fun _ => Except.error "down"
  getPropsById := fun _ _ => Except.error "down"
  getUserStats := fun _ _ => Except.error "down"
  getUserHistory := fun _ _ => Except.error "down"

/-- Concrete oracle reporting a total of zero props. -/
def oracleZero : Oracle where
  getCurrentPropsId := fun _ => Except.ok (some 0)
  getPropsById := fun _ _ => Except.ok (some pdAB)
  getUserStats := fun _ _ => Except.ok (some ⟨2, 1⟩)
  getUserHistory := fun _ _ => Except.ok []

/-- Witness for C3 at limit 10 and 50, T = 3, index 2, on a concrete
oracle whose counter lookup yields 3. -/
theorem scanWindow_spec_witness :
    (scanWindow 10 3).length = min 10 3 ∧
    (2 ∈ scanWindow 10 3 ↔
      max 0 ((3 : Int) - (10 : Int)) ≤ (2 : Int) ∧ (2 : Int) < (3 : Int)) ∧
    leaderboardIndexCalls oracleMain = scanWindow 10 3 ∧
    historyIndexCalls oracleMain "U" TabType.all = (scanWindow 50 3).reverse := by
  have w := scanWindow_spec 10 3
  have h3 : robustFetch oracleMain.getCurrentPropsId 3 500 =
      Except.ok (some (some 3)) := rfl
  have hmain := w.2.2 oracleMain (some 3) h3 rfl
  have hhist := (scanWindow_spec 50 3).2.2 oracleMain (some 3) h3 rfl
  exact ⟨w.1, w.2.1 2, hmain.1,
    (hhist.2.2 "U" TabType.all (by decide)).1⟩

/-- C8: when the initial counter lookup decodes to a total of zero, the
leaderboard aggregation and the history given/all scans return an empty
report as a normal result and issue no per-index lookups. -/
theorem zero_total_empty_report :
    ∀ (o : Oracle) (u : String) (v : Option Nat),
      robustFetch o.getCurrentPropsId 3 500 = Except.ok (some v) →
      v.getD 0 = 0 →
      loadLeaderboard o = Except.ok [] ∧
      leaderboardIndexCalls o = [] ∧
      (∀ tab, tab ≠ TabType.received →
        loadHistory o u tab = Except.ok [] ∧ historyIndexCalls o u tab = []) := by
  intro o u v hv h0
  refine ⟨?_, ?_, ?_⟩
  · unfold loadLeaderboard
    rw [hv]
    dsimp only
    rw [h0]
    simp
  · unfold leaderboardIndexCalls
    rw [hv]
    dsimp only
    rw [h0]
    simp
  · intro tab htab
    cases tab with
    | received => exact absurd rfl htab
    | all =>
      constructor
      · unfold loadHistory
        rw [hv]
        dsimp only
        rw [h0]
        rfl
      · unfold historyIndexCalls
        rw [hv]
        dsimp only
        rw [h0]
        rfl
    | given =>
      constructor
      · unfold loadHistory
        rw [hv]
        dsimp only
        rw [h0]
        rfl
      · unfold historyIndexCalls
        rw [hv]
        dsimp only
        rw [h0]
        rfl

/-- Witness for C8 on a concrete oracle whose counter lookup yields a
total of zero. -/
theorem zero_total_empty_report_witness :
    loadLeaderboard oracleZero = Except.ok [] ∧
    leaderboardIndexCalls oracleZero = [] ∧
    loadHistory oracleZero "U" TabType.all = Except.ok [] ∧
    historyIndexCalls oracleZero "U" TabType.all = [] := by
  have h := zero_total_empty_report oracleZero "U" (some 0) rfl rfl
  have h2 := h.2.2 TabType.all (by decide)
  exact ⟨h.1, h.2.1, h2.1, h2.2⟩

/-- Membership in the deduplicating insertion. -/
theorem mem_addUnique (l : List String) (x a : String) :
    a ∈ addUnique l x ↔ a ∈ l ∨ a = x := by
  unfold addUnique
  split
  · rename_i hx
    constructor
    · exact Or.inl
    · rintro (h | rfl)
      · exact h
      · exact hx
  · simp

/-- The deduplicating insertion preserves freedom from duplicates. -/
theorem nodup_addUnique (l : List String) (x : String) (h : l.Nodup) :
    (addUnique l x).Nodup := by
  unfold addUnique
  split
  · exact h
  · rename_i hx
    simp [List.nodup_append, h, hx]

/-- Generic shape of the accumulating loops: pushing the optional
output of each element is a filterMap. -/
theorem foldl_append_toList {γ β : Type} (g : γ → Option β) :
    ∀ (ws : List γ) (init : List β),
      ws.foldl (fun acc i => acc ++ (g i).toList) init = init ++ ws.filterMap g := by
  intro ws
  induction ws with
  | nil => intro init; simp
  | cons a l ih =>
    intro init
    simp only [List.foldl_cons, ih, List.filterMap_cons]
    cases g a <;> simp

/-- The user-scan loop accumulates exactly the users extracted from
successfully fetched props of the walked indices, starting from the
given accumulator. -/
theorem mem_scanUsers_foldl (o : Oracle) :
    ∀ (ws : List Nat) (acc : List String) (a : String),
      (a ∈ ws.foldl
        (fun acc i =>
          match fetchProp o i with
          | some pd => addUnique (addUnique acc pd.giver) pd.receiver
          | none => acc) acc) ↔
      (a ∈ acc ∨ ∃ i ∈ ws, ∃ pd, fetchProp o i = some pd ∧
        (a = pd.giver ∨ a = pd.receiver)) := by
  intro ws
  induction ws with
  | nil => simp
  | cons j l ih =>
    intro acc a
    simp only [List.foldl_cons]
    cases hj : fetchProp o j with
    | none =>
      rw [ih]
      constructor
      · rintro (h | ⟨i, hi, pd, hpd, hx⟩)
        · exact Or.inl h
        · exact Or.inr ⟨i, List.mem_cons_of_mem j hi, pd, hpd, hx⟩
      · rintro (h | ⟨i, hi, pd, hpd, hx⟩)
        · exact Or.inl h
        · rcases List.mem_cons.1 hi with rfl | hi
          · rw [hj] at hpd; exact absurd hpd (by simp)
          · exact Or.inr ⟨i, hi, pd, hpd, hx⟩
    | some pd =>
      rw [ih]
      simp only [mem_addUnique]
      constructor
      · rintro (((h | rfl) | rfl) | ⟨i, hi, pd2, hpd2, hx⟩)
        · exact Or.inl h
        · exact Or.inr ⟨j, List.mem_cons_self j l, pd, hj, Or.inl rfl⟩
        · exact Or.inr ⟨j, List.mem_cons_self j l, pd, hj, Or.inr rfl⟩
        · exact Or.inr ⟨i, List.mem_cons_of_mem j hi, pd2, hpd2, hx⟩
      · rintro (h | ⟨i, hi, pd2, hpd2, hx⟩)
        · exact Or.inl (Or.inl (Or.inl h))
        · rcases List.mem_cons.1 hi with rfl | hi
          · rw [hj] at hpd2
            cases hpd2
            rcases hx with rfl | rfl
            · exact Or.inl (Or.inl (Or.inr rfl))
            · exact Or.inl (Or.inr rfl)
          · exact Or.inr ⟨i, hi, pd2, hpd2, hx⟩

/-- The user-scan loop never introduces duplicates. -/
theorem nodup_scanUsers_foldl (o : Oracle) :
    ∀ (ws : List Nat) (acc : List String), acc.Nodup →
      (ws.foldl
        (fun acc i =>
          match fetchProp o i with
          | some pd => addUnique (addUnique acc pd.giver) pd.receiver
          | none => acc) acc).Nodup := by
  intro ws
  induction ws with
  | nil => intro acc h; simpa using h
  | cons j l ih =>
    intro acc h
    simp only [List.foldl_cons]
    cases hj : fetchProp o j with
    | none => exact ih acc h
    | some pd => exact ih _ (nodup_addUnique _ _ (nodup_addUnique _ _ h))

/-- Membership characterisation of the deduplication set of the scan. -/
theorem mem_scanUsers (o : Oracle) (ws : List Nat) (a : String) :
    a ∈ scanUsers o ws ↔
      ∃ i ∈ ws, ∃ pd, fetchProp o i = some pd ∧
        (a = pd.giver ∨ a = pd.receiver) := by
  unfold scanUsers
  rw [mem_scanUsers_foldl]
  simp

/-- The deduplication set of the scan has no duplicates. -/
theorem nodup_scanUsers (o : Oracle) (ws : List Nat) : (scanUsers o ws).Nodup :=
  nodup_scanUsers_foldl o ws [] List.nodup_nil

/-- C6: the secondary (stats) phase of the leaderboard issues exactly
one lookup per unique identity extracted from the successfully fetched
props of the window, and none for any other identity: the list of
stats lookups has no duplicates, and an address is looked up exactly
when some successfully fetched prop of the window names it as giver or
receiver. -/
theorem leaderboard_dedup :
    ∀ (o : Oracle) (v : Option Nat),
      robustFetch o.getCurrentPropsId 3 500 = Except.ok (some v) →
      (leaderboardStatsCalls o).Nodup ∧
      (∀ a, a ∈ leaderboardStatsCalls o ↔
        ∃ i ∈ scanWindow 10 (v.getD 0), ∃ pd, fetchProp o i = some pd ∧
          (a = pd.giver ∨ a = pd.receiver)) := by
  intro o v hv
  unfold leaderboardStatsCalls
  rw [hv]
  dsimp only
  by_cases h0 : v.getD 0 = 0
  · rw [if_pos h0, h0]
    refine ⟨List.nodup_nil, fun a => ?_⟩
    simp [scanWindow]
  · rw [if_neg h0]
    unfold leaderboardUniqueUsers
    exact ⟨nodup_scanUsers o _, fun a => mem_scanUsers o _ a⟩

/-- Witness for C6 on the concrete oracle with total 3 and prop 1
failing: the stats-call list has no duplicates and contains A because
the fetched props name A as giver. -/
theorem leaderboard_dedup_witness :
    (leaderboardStatsCalls oracleMain).Nodup ∧
    ("A" ∈ leaderboardStatsCalls oracleMain ↔
      ∃ i ∈ scanWindow 10 ((some 3 : Option Nat).getD 0), ∃ pd,
        fetchProp oracleMain i = some pd ∧
          ("A" = pd.giver ∨ "A" = pd.receiver)) := by
  have h := leaderboard_dedup oracleMain (some 3) rfl
  exact ⟨h.1, h.2 "A"⟩

/-- The result component of the retry loop is never the undefined
fall-through when at least one iteration runs. -/
theorem robustFetchGo_ne_ok_none {ε α : Type} (fn : Nat → Except ε α)
    (retries delayMs : Nat) :
    ∀ (fuel i : Nat), i + fuel = retries → 0 < fuel →
      (robustFetchGo fn retries delayMs i fuel).1 ≠ Except.ok none := by
  intro fuel
  induction fuel with
  | zero => intro i h h0; omega
  | succ f ih =>
    intro i hif h0
    simp only [robustFetchGo]
    cases hfn : fn i with
    | ok v => simp
    | error e =>
      dsimp only
      by_cases hi : i = retries - 1
      · rw [if_pos hi]
        simp
      · rw [if_neg hi]
        exact ih (i + 1) (by omega) (by omega)

/-- robustFetch with a positive retry count either succeeds with a
value or propagates an error; it never resolves with undefined. -/
theorem robustFetch_ne_ok_none {ε α : Type} (fn : Nat → Except ε α)
    (retries delayMs : Nat) (h : 0 < retries) :
    robustFetch fn retries delayMs ≠ Except.ok none :=
  robustFetchGo_ne_ok_none fn retries delayMs retries 0 (by omega) h

/-- Whenever the counter lookup succeeds, loadLeaderboard returns the
ranked, stably sorted stats list (empty in the degenerate early-return
cases, where that list is itself empty). -/
theorem loadLeaderboard_ok_shape (o : Oracle) (v : Option Nat)
    (hv : robustFetch o.getCurrentPropsId 3 500 = Except.ok (some v)) :
    loadLeaderboard o =
      Except.ok (assignRanks (sortByReceived (leaderboardPreSort o))) := by
  unfold loadLeaderboard leaderboardPreSort
  rw [hv]
  dsimp only
  by_cases h0 : v.getD 0 = 0
  · rw [if_pos h0, h0]
    have hu : leaderboardUniqueUsers o 0 = [] := rfl
    rw [hu]
    have hs : leaderboardUserStats o [] = [] := rfl
    rw [hs]
    simp [sortByReceived, assignRanks]
  · rw [if_neg h0]
    by_cases hu : leaderboardUniqueUsers o (v.getD 0) = []
    · rw [if_pos hu, hu]
      have hs : leaderboardUserStats o [] = [] := rfl
      rw [hs]
      simp [sortByReceived, assignRanks]
    · rw [if_neg hu]

/-- Whenever the counter lookup succeeds, the given/all history scan
returns its items normally. -/
theorem loadHistory_scan_ok (o : Oracle) (u : String) (tab : TabType)
    (htab : tab ≠ TabType.received) (v : Option Nat)
    (hv : robustFetch o.getCurrentPropsId 3 500 = Except.ok (some v)) :
    loadHistory o u tab =
      Except.ok (historyScanItems o u tab ((scanWindow 50 (v.getD 0)).reverse)) := by
  cases tab with
  | received => exact absurd rfl htab
  | all =>
    unfold loadHistory
    rw [hv]
  | given =>
    unfold loadHistory
    rw [hv]

/-- Whenever the history-list lookup succeeds, the received-mode
history returns its items normally. -/
theorem loadHistory_received_ok (o : Oracle) (u : String) (hs : List Nat)
    (hv : robustFetch (o.getUserHistory u) 3 500 = Except.ok (some hs)) :
    loadHistory o u TabType.received =
      Except.ok (historyReceivedItems o ((sliceLast 20 hs).reverse)) := by
  unfold loadHistory
  rw [hv]

/-- C4: each aggregation fails exactly when its initial lookup fails
(after exhausting retries), and then propagates that very error to its
caller instead of returning an empty report; every other lookup failure
is absorbed.  The initial lookup is the counter fetch for the
leaderboard and the given/all history scans, and the user-history fetch
for the received mode. -/
theorem aggregation_error_iff :
    ∀ (o : Oracle) (u : String) (e : String),
      (loadLeaderboard o = Except.error e ↔
        robustFetch o.getCurrentPropsId 3 500 = Except.error e) ∧
      (∀ tab, tab ≠ TabType.received →
        (loadHistory o u tab = Except.error e ↔
          robustFetch o.getCurrentPropsId 3 500 = Except.error e)) ∧
      (loadHistory o u TabType.received = Except.error e ↔
        robustFetch (o.getUserHistory u) 3 500 = Except.error e) := by
  intro o u e
  refine ⟨?_, ?_, ?_⟩
  · cases hres : robustFetch o.getCurrentPropsId 3 500 with
    | error e2 =>
      unfold loadLeaderboard
      rw [hres]
      dsimp only
      simp
    | ok w =>
      cases w with
      | none => exact absurd hres (robustFetch_ne_ok_none _ 3 500 (by omega))
      | some v =>
        rw [loadLeaderboard_ok_shape o v hres]
        simp
  · intro tab htab
    cases hres : robustFetch o.getCurrentPropsId 3 500 with
    | error e2 =>
      cases tab with
      | received => exact absurd rfl htab
      | all =>
        unfold loadHistory
        rw [hres]
        dsimp only
        simp
      | given =>
        unfold loadHistory
        rw [hres]
        dsimp only
        simp
    | ok w =>
      cases w with
      | none => exact absurd hres (robustFetch_ne_ok_none _ 3 500 (by omega))
      | some v =>
        rw [loadHistory_scan_ok o u tab htab v hres]
        simp
  · cases hres : robustFetch (o.getUserHistory u) 3 500 with
    | error e2 =>
      unfold loadHistory
      rw [hres]
      dsimp only
      simp
    | ok w =>
      cases w with
      | none => exact absurd hres (robustFetch_ne_ok_none _ 3 500 (by omega))
      | some hs =>
        rw [loadHistory_received_ok o u hs hres]
        simp

/-- Witness for C4 on the concrete oracle whose every call fails: all
three aggregations propagate exactly the initial error. -/
theorem aggregation_error_iff_witness :
    loadLeaderboard oracleFail = Except.error "down" ∧
    loadHistory oracleFail "U" TabType.all = Except.error "down" ∧
    loadHistory oracleFail "U" TabType.received = Except.error "down" := by
  have h := aggregation_error_iff oracleFail "U" "down"
  exact ⟨h.1.mpr rfl, (h.2.1 TabType.all (by decide)).mpr rfl, h.2.2.mpr rfl⟩

/-- When the lookup of index j fails, the user scan over any index list
equals the scan over the same list with j removed: the failing index
contributes nothing and no other index is affected. -/
theorem scanUsers_skip (o : Oracle) (j : Nat) (hj : fetchProp o j = none) :
    ∀ ws : List Nat, scanUsers o ws = scanUsers o (ws.filter fun i => i != j) := by
  have aux : ∀ (ws : List Nat) (acc : List String),
      ws.foldl
        (fun acc i =>
          match fetchProp o i with
          | some pd => addUnique (addUnique acc pd.giver) pd.receiver
          | none => acc) acc
      = (ws.filter fun i => i != j).foldl
        (fun acc i =>
          match fetchProp o i with
          | some pd => addUnique (addUnique acc pd.giver) pd.receiver
          | none => acc) acc := by
    intro ws
    induction ws with
    | nil => intro acc; rfl
    | cons i l ih =>
      intro acc
      by_cases hij : i = j
      · subst hij
        simp only [List.filter_cons, bne_self_eq_false, List.foldl_cons, hj]
        exact ih acc
      · have hb : (i != j) = true := by simpa using hij
        simp only [List.filter_cons, hb, if_pos, List.foldl_cons]
        exact ih _
  intro ws
  exact aux ws []

/-- When the lookup of index j fails, the given/all history scan over
any index list equals the scan over the same list with j removed. -/
theorem historyScanItems_skip (o : Oracle) (j : Nat) (hj : fetchProp o j = none)
    (u : String) (tab : TabType) :
    ∀ ws : List Nat,
      historyScanItems o u tab ws =
        historyScanItems o u tab (ws.filter fun i => i != j) := by
  have aux : ∀ (ws : List Nat) (acc : List HistoryItem),
      ws.foldl
        (fun items i =>
          match fetchProp o i with
          | some pd => historyScanStep u tab items i pd
          | none => items) acc
      = (ws.filter fun i => i != j).foldl
        (fun items i =>
          match fetchProp o i with
          | some pd => historyScanStep u tab items i pd
          | none => items) acc := by
    intro ws
    induction ws with
    | nil => intro acc; rfl
    | cons i l ih =>
      intro acc
      by_cases hij : i = j
      · subst hij
        simp only [List.filter_cons, bne_self_eq_false, List.foldl_cons, hj]
        exact ih acc
      · have hb : (i != j) = true := by simpa using hij
        simp only [List.filter_cons, hb, if_pos, List.foldl_cons]
        exact ih _
  intro ws
  exact aux ws []

/-- C2: when the per-index lookup of some index j exhausts its retries,
the scans behave exactly as they would over the window with j removed —
j contributes nothing and every other index is processed unchanged —
and no failure surfaces to the caller: whenever the initial lookup
succeeds, both aggregations still return an ok report. -/
theorem partial_failure_isolation :
    ∀ (o : Oracle) (j : Nat),
      (∃ e, robustFetch (o.getPropsById j) 3 500 = Except.error e) →
      (∀ ws : List Nat, scanUsers o ws = scanUsers o (ws.filter fun i => i != j)) ∧
      (∀ (u : String) (tab : TabType) (ws : List Nat),
        historyScanItems o u tab ws =
          historyScanItems o u tab (ws.filter fun i => i != j)) ∧
      (∀ v : Option Nat,
        robustFetch o.getCurrentPropsId 3 500 = Except.ok (some v) →
        (∃ rows, loadLeaderboard o = Except.ok rows) ∧
        (∀ (u : String) (tab : TabType), tab ≠ TabType.received →
          ∃ items, loadHistory o u tab = Except.ok items)) := by
  intro o j he
  have hj : fetchProp o j = none := by
    obtain ⟨e, he⟩ := he
    unfold fetchProp
    rw [he]
  refine ⟨scanUsers_skip o j hj, fun u tab => historyScanItems_skip o j hj u tab, ?_⟩
  intro v hv
  constructor
  · exact ⟨_, loadLeaderboard_ok_shape o v hv⟩
  · intro u tab htab
    exact ⟨_, loadHistory_scan_ok o u tab htab v hv⟩

/-- Witness for C2 on the concrete oracle where the lookup of index 1
always fails: the scans over the window of total 3 equal the scans with
index 1 removed, and both aggregations return ok. -/
theorem partial_failure_isolation_witness :
    scanUsers oracleMain (scanWindow 10 3) =
      scanUsers oracleMain ((scanWindow 10 3).filter fun i => i != 1) ∧
    historyScanItems oracleMain "A" TabType.all (scanWindow 50 3).reverse =
      historyScanItems oracleMain "A" TabType.all
        (((scanWindow 50 3).reverse).filter fun i => i != 1) ∧
    (∃ rows, loadLeaderboard oracleMain = Except.ok rows) ∧
    (∃ items, loadHistory oracleMain "A" TabType.all = Except.ok items) := by
  have h := partial_failure_isolation oracleMain 1 ⟨"down", rfl⟩
  have h3 := h.2.2 (some 3) rfl
  exact ⟨h.1 (scanWindow 10 3), h.2.1 "A" TabType.all (scanWindow 50 3).reverse,
    h3.1, h3.2 "A" TabType.all (by decide)⟩

/-- The optional row the given/all scan produces for index i: the
functional content of one iteration of the scanning loop. -/
def historyClassify (o : Oracle) (u : String) (tab : TabType) (i : Nat) :
    Option HistoryItem :=
  match fetchProp o i with
  | none => none
  | some pd =>
    if tab = TabType.given ∧ pd.giver = u then
      some (mkHistoryItem i ItemType.given pd)
    else if tab = TabType.all ∧ (pd.giver = u ∨ pd.receiver = u) then
      some (mkHistoryItem i (if pd.receiver = u then ItemType.received else ItemType.given) pd)
    else none

/-- The given/all scanning loop is the filterMap of its per-index
classification. -/
theorem historyScanItems_eq_filterMap (o : Oracle) (u : String) (tab : TabType) :
    ∀ ws : List Nat,
      historyScanItems o u tab ws = ws.filterMap (historyClassify o u tab) := by
  have aux : ∀ (ws : List Nat) (acc : List HistoryItem),
      ws.foldl
        (fun items i =>
          match fetchProp o i with
          | some pd => historyScanStep u tab items i pd
          | none => items) acc
      = acc ++ ws.filterMap (historyClassify o u tab) := by
    intro ws
    induction ws with
    | nil => intro acc; simp
    | cons i l ih =>
      intro acc
      simp only [List.foldl_cons, List.filterMap_cons]
      cases hi : fetchProp o i with
      | none =>
        rw [ih]
        simp only [historyClassify, hi]
      | some pd =>
        rw [ih]
        simp only [historyClassify, historyScanStep, hi]
        split_ifs with h1 h2 <;> simp
  intro ws
  exact aux ws []

/-- A classified row always carries the index it came from. -/
theorem historyClassify_id (o : Oracle) (u : String) (tab : TabType)
    (i : Nat) (r : HistoryItem) :
    historyClassify o u tab i = some r → r.id = i := by
  unfold historyClassify
  cases fetchProp o i with
  | none => simp
  | some pd =>
    dsimp only
    split_ifs <;> intro h <;> simp only [Option.some.injEq] at h <;>
      first
        | exact absurd h (by simp)
        | (subst h; rfl)

/-- What the scan keeps in given mode. -/
theorem historyClassify_given (o : Oracle) (u : String) (i : Nat)
    (r : HistoryItem) :
    historyClassify o u TabType.given i = some r ↔
      ∃ pd, fetchProp o i = some pd ∧ pd.giver = u ∧
        r = mkHistoryItem i ItemType.given pd := by
  unfold historyClassify
  cases hi : fetchProp o i with
  | none => simp
  | some pd =>
    by_cases hg : pd.giver = u
    · simp [hg, eq_comm]
    · simp [hg]

/-- What the scan keeps in all mode, and how it tags it. -/
theorem historyClassify_all (o : Oracle) (u : String) (i : Nat)
    (r : HistoryItem) :
    historyClassify o u TabType.all i = some r ↔
      ∃ pd, fetchProp o i = some pd ∧ (pd.giver = u ∨ pd.receiver = u) ∧
        r = mkHistoryItem i
          (if pd.receiver = u then ItemType.received else ItemType.given) pd := by
  unfold historyClassify
  cases hi : fetchProp o i with
  | none => simp
  | some pd =>
    by_cases hgr : pd.giver = u ∨ pd.receiver = u
    · simp [hgr, eq_comm]
    · simp [hgr]

/-- C7: in given mode the history scan keeps a successfully fetched
record exactly when the subject is its giver; in all mode exactly when
the subject is giver or receiver, tagged received when the subject is
the receiver and given otherwise; and the rows come out in strictly
descending index order, with no further sorting. -/
theorem history_given_all_modes :
    ∀ (o : Oracle) (u : String) (v : Option Nat) (T : Nat),
      robustFetch o.getCurrentPropsId 3 500 = Except.ok (some v) →
      v.getD 0 = T →
      loadHistory o u TabType.given =
        Except.ok (historyScanItems o u TabType.given ((scanWindow 50 T).reverse)) ∧
      loadHistory o u TabType.all =
        Except.ok (historyScanItems o u TabType.all ((scanWindow 50 T).reverse)) ∧
      (∀ r, r ∈ historyScanItems o u TabType.given ((scanWindow 50 T).reverse) ↔
        ∃ i ∈ scanWindow 50 T, ∃ pd, fetchProp o i = some pd ∧ pd.giver = u ∧
          r = mkHistoryItem i ItemType.given pd) ∧
      (∀ r, r ∈ historyScanItems o u TabType.all ((scanWindow 50 T).reverse) ↔
        ∃ i ∈ scanWindow 50 T, ∃ pd, fetchProp o i = some pd ∧
          (pd.giver = u ∨ pd.receiver = u) ∧
          r = mkHistoryItem i
            (if pd.receiver = u then ItemType.received else ItemType.given) pd) ∧
      (∀ tab, (historyScanItems o u tab ((scanWindow 50 T).reverse)).Pairwise
        fun r s => s.id < r.id) := by
  intro o u v T hv hT
  subst hT
  refine ⟨loadHistory_scan_ok o u TabType.given (by decide) v hv,
    loadHistory_scan_ok o u TabType.all (by decide) v hv, ?_, ?_, ?_⟩
  · intro r
    rw [historyScanItems_eq_filterMap, List.mem_filterMap]
    constructor
    · rintro ⟨i, hi, hc⟩
      obtain ⟨pd, h1, h2, h3⟩ := (historyClassify_given o u i r).1 hc
      exact ⟨i, List.mem_reverse.1 hi, pd, h1, h2, h3⟩
    · rintro ⟨i, hi, pd, h1, h2, h3⟩
      exact ⟨i, List.mem_reverse.2 hi,
        (historyClassify_given o u i r).2 ⟨pd, h1, h2, h3⟩⟩
  · intro r
    rw [historyScanItems_eq_filterMap, List.mem_filterMap]
    constructor
    · rintro ⟨i, hi, hc⟩
      obtain ⟨pd, h1, h2, h3⟩ := (historyClassify_all o u i r).1 hc
      exact ⟨i, List.mem_reverse.1 hi, pd, h1, h2, h3⟩
    · rintro ⟨i, hi, pd, h1, h2, h3⟩
      exact ⟨i, List.mem_reverse.2 hi,
        (historyClassify_all o u i r).2 ⟨pd, h1, h2, h3⟩⟩
  · intro tab
    rw [historyScanItems_eq_filterMap]
    have hpw : List.Pairwise (fun i j : Nat => j < i)
        ((scanWindow 50 (v.getD 0)).reverse) := by
      rw [List.pairwise_reverse]
      simp only [scanWindow]
      exact List.pairwise_lt_range' _ _
    exact hpw.filterMap _ (fun a b hr x hx y hy => by
      rw [historyClassify_id o u tab a x (Option.mem_def.1 hx),
        historyClassify_id o u tab b y (Option.mem_def.1 hy)]
      exact hr)

/-- Witness for C7 on the concrete oracle with total 3, subject B (the
receiver of every fetched prop): the all-mode row for index 2 exists
and is tagged received, and both scans return ok with descending ids. -/
theorem history_given_all_modes_witness :
    loadHistory oracleMain "B" TabType.all =
      Except.ok (historyScanItems oracleMain "B" TabType.all
        ((scanWindow 50 3).reverse)) ∧
    (mkHistoryItem 2
        (if pdAB.receiver = "B" then ItemType.received else ItemType.given) pdAB ∈
      historyScanItems oracleMain "B" TabType.all ((scanWindow 50 3).reverse) ↔
      ∃ i ∈ scanWindow 50 3, ∃ pd, fetchProp oracleMain i = some pd ∧
        (pd.giver = "B" ∨ pd.receiver = "B") ∧
        mkHistoryItem 2
          (if pdAB.receiver = "B" then ItemType.received else ItemType.given) pdAB =
          mkHistoryItem i
            (if pd.receiver = "B" then ItemType.received else ItemType.given) pd) ∧
    (historyScanItems oracleMain "B" TabType.given
      ((scanWindow 50 3).reverse)).Pairwise (fun r s => s.id < r.id) := by
  have h := history_given_all_modes oracleMain "B" (some 3) 3 rfl rfl
  exact ⟨h.2.1,
    h.2.2.2.1 (mkHistoryItem 2
      (if pdAB.receiver = "B" then ItemType.received else ItemType.given) pdAB),
    h.2.2.2.2 TabType.given⟩

/-- The received-mode loop is the filterMap projecting every
successfully fetched prop into a row tagged received. -/
theorem historyReceivedItems_eq_filterMap (o : Oracle) :
    ∀ ids : List Nat,
      historyReceivedItems o ids =
        ids.filterMap fun id =>
          (fetchProp o id).map (mkHistoryItem id ItemType.received) := by
  have aux : ∀ (ids : List Nat) (acc : List HistoryItem),
      ids.foldl
        (fun items id =>
          match fetchProp o id with
          | some pd => items ++ [mkHistoryItem id ItemType.received pd]
          | none => items) acc
      = acc ++ ids.filterMap fun id =>
          (fetchProp o id).map (mkHistoryItem id ItemType.received) := by
    intro ids
    induction ids with
    | nil => intro acc; simp
    | cons id l ih =>
      intro acc
      simp only [List.foldl_cons, List.filterMap_cons]
      cases hi : fetchProp o id with
      | none =>
        rw [ih]
        simp [hi]
      | some pd =>
        rw [ih]
        simp [hi]
  intro ids
  exact aux ids []

/-- C9: in received mode the aggregator takes exactly the last 20
entries of the subject's history id list, reverses them, fetches each
by id, and projects every successfully fetched record directly into a
row tagged received — with no check that the subject appears among the
record's identity fields (the membership equation imposes no condition
relating u to the fetched payload). -/
theorem history_received_mode :
    ∀ (o : Oracle) (u : String) (hs : List Nat),
      robustFetch (o.getUserHistory u) 3 500 = Except.ok (some hs) →
      loadHistory o u TabType.received =
        Except.ok (((sliceLast 20 hs).reverse).filterMap
          fun id => (fetchProp o id).map (mkHistoryItem id ItemType.received)) ∧
      (∀ r, r ∈ historyReceivedItems o ((sliceLast 20 hs).reverse) ↔
        ∃ id ∈ (sliceLast 20 hs).reverse, ∃ pd, fetchProp o id = some pd ∧
          r = mkHistoryItem id ItemType.received pd) ∧
      (∀ r, r ∈ historyReceivedItems o ((sliceLast 20 hs).reverse) →
        r.type = ItemType.received) ∧
      sliceLast 20 hs = hs.drop (hs.length - 20) := by
  intro o u hs hv
  have hmem : ∀ r, r ∈ historyReceivedItems o ((sliceLast 20 hs).reverse) ↔
      ∃ id ∈ (sliceLast 20 hs).reverse, ∃ pd, fetchProp o id = some pd ∧
        r = mkHistoryItem id ItemType.received pd := by
    intro r
    rw [historyReceivedItems_eq_filterMap, List.mem_filterMap]
    constructor
    · rintro ⟨id, hid, hmap⟩
      obtain ⟨pd, hpd, hr⟩ := Option.map_eq_some'.1 hmap
      exact ⟨id, hid, pd, hpd, hr.symm⟩
    · rintro ⟨id, hid, pd, hpd, hr⟩
      exact ⟨id, hid, by rw [hpd, hr]; rfl⟩
  refine ⟨?_, hmem, ?_, rfl⟩
  · rw [loadHistory_received_ok o u hs hv, historyReceivedItems_eq_filterMap]
  · intro r hr
    obtain ⟨id, hid, pd, hpd, hr2⟩ := (hmem r).1 hr
    rw [hr2]
    rfl

/-- Witness for C9 on the concrete oracle whose history list for U is
0, 1, 2: the received tab projects the fetchable ids most-recent-first,
membership is as characterised at a concrete row, and that row is
tagged received. -/
theorem history_received_mode_witness :
    loadHistory oracleMain "U" TabType.received =
      Except.ok (((sliceLast 20 [0, 1, 2]).reverse).filterMap
        fun id => (fetchProp oracleMain id).map (mkHistoryItem id ItemType.received)) ∧
    (mkHistoryItem 2 ItemType.received pdAB ∈
        historyReceivedItems oracleMain ((sliceLast 20 [0, 1, 2]).reverse) ↔
      ∃ id ∈ (sliceLast 20 [0, 1, 2]).reverse, ∃ pd,
        fetchProp oracleMain id = some pd ∧
        mkHistoryItem 2 ItemType.received pdAB = mkHistoryItem id ItemType.received pd) ∧
    sliceLast 20 [0, 1, 2] = [0, 1, 2].drop ([0, 1, 2].length - 20) := by
  have h := history_received_mode oracleMain "U" [0, 1, 2] rfl
  exact ⟨h.1, h.2.1 (mkHistoryItem 2 ItemType.received pdAB), h.2.2.2⟩

/-- The stats part of a leaderboard row, dropping the derived rank. -/
def stripRank (r : LeaderboardUser) : UserStat :=
  ⟨r.address, r.propsReceived, r.propsGiven⟩

/-- The descending comparator is transitive. -/
theorem byReceivedDesc_trans : ∀ a b c : UserStat,
    byReceivedDesc a b → byReceivedDesc b c → byReceivedDesc a c := by
  intro a b c hab hbc
  simp only [byReceivedDesc, decide_eq_true_eq] at *
  omega

/-- The descending comparator is total. -/
theorem byReceivedDesc_total : ∀ a b : UserStat,
    byReceivedDesc a b || byReceivedDesc b a := by
  intro a b
  simp only [byReceivedDesc]
  by_cases h : b.propsReceived ≤ a.propsReceived
  · simp [h]
  · have h2 : a.propsReceived ≤ b.propsReceived := by omega
    simp [h, h2]

/-- Attaching ranks changes no other field. -/
theorem assignRanks_map_stripRank (l : List UserStat) :
    (assignRanks l).map stripRank = l := by
  unfold assignRanks
  rw [List.mapIdx_eq_enum_map, List.map_map]
  exact List.enum_map_snd l

/-- The sort step touches neither the multiset nor, within one value of
the primary metric, the order of the stats list: filtering the sorted
list at any metric value yields exactly the filtered input. -/
theorem sortByReceived_filter_eq (l : List UserStat) (m : Nat) :
    (sortByReceived l).filter (fun u => u.propsReceived == m) =
      l.filter (fun u => u.propsReceived == m) := by
  set p : UserStat → Bool := fun u => u.propsReceived == m with hp
  have hpw : (l.filter p).Pairwise (fun a b => byReceivedDesc a b = true) := by
    apply List.pairwise_of_forall_mem_list
    intro a ha b hb
    have hpa := (List.mem_filter.1 ha).2
    have hpb := (List.mem_filter.1 hb).2
    simp only [hp, beq_iff_eq] at hpa hpb
    simp [byReceivedDesc, hpa, hpb]
  have h1 : (l.filter p).Sublist (sortByReceived l) :=
    List.sublist_mergeSort byReceivedDesc_trans byReceivedDesc_total hpw
      (List.filter_sublist l)
  have h2 : List.Perm ((sortByReceived l).filter p) (l.filter p) :=
    (List.mergeSort_perm l byReceivedDesc).filter p
  have h3 : (l.filter p).Sublist ((sortByReceived l).filter p) := by
    have h4 := List.Sublist.filter p h1
    rwa [List.filter_filter, show (fun a => p a && p a) = p by
      funext a; exact Bool.and_self (p a)] at h4
  exact (h3.eq_of_length h2.length_eq.symm).symm

/-- The sorted stats list is descending in the primary metric. -/
theorem sortByReceived_pairwise (l : List UserStat) :
    (sortByReceived l).Pairwise
      (fun a b => b.propsReceived ≤ a.propsReceived) := by
  have h := List.sorted_mergeSort byReceivedDesc_trans byReceivedDesc_total l
  exact h.imp fun hab => by
    simpa [byReceivedDesc, decide_eq_true_eq] using hab

/-- Any ok result of loadLeaderboard is the ranked stable sort of the
stats list. -/
theorem loadLeaderboard_rows (o : Oracle) (rows : List LeaderboardUser)
    (h : loadLeaderboard o = Except.ok rows) :
    rows = assignRanks (sortByReceived (leaderboardPreSort o)) := by
  cases hres : robustFetch o.getCurrentPropsId 3 500 with
  | error e2 =>
    unfold loadLeaderboard at h
    rw [hres] at h
    simp at h
  | ok w =>
    cases w with
    | none => exact absurd hres (robustFetch_ne_ok_none _ 3 500 (by omega))
    | some v =>
      rw [loadLeaderboard_ok_shape o v hres] at h
      simp only [Except.ok.injEq] at h
      exact h.symm

/-- C5: the emitted leaderboard rows are sorted by props received in
descending order; the sort is stable — within any one value of the
primary metric the rows keep exactly the order of the stats list, which
is the order of successful secondary-lookup completion — and each row's
rank is its 1-based position in the sorted sequence. -/
theorem leaderboard_ranking :
    ∀ (o : Oracle) (rows : List LeaderboardUser),
      loadLeaderboard o = Except.ok rows →
      rows.Pairwise (fun a b => b.propsReceived ≤ a.propsReceived) ∧
      (∀ m : Nat,
        ((rows.map stripRank).filter fun u => u.propsReceived == m) =
          ((leaderboardPreSort o).filter fun u => u.propsReceived == m)) ∧
      (∀ i, (h : i < rows.length) → (rows.get ⟨i, h⟩).rank = i + 1) := by
  intro o rows hrows
  have hshape := loadLeaderboard_rows o rows hrows
  subst hshape
  refine ⟨?_, ?_, ?_⟩
  · have h1 := sortByReceived_pairwise (leaderboardPreSort o)
    rw [← assignRanks_map_stripRank (sortByReceived (leaderboardPreSort o)),
      List.pairwise_map] at h1
    exact h1
  · intro m
    rw [assignRanks_map_stripRank]
    exact sortByReceived_filter_eq (leaderboardPreSort o) m
  · intro i h
    rw [List.get_eq_getElem]
    simp [assignRanks]

/-- Concrete oracle for the ranking witness: total 3, every prop
decodes to pdAB, A has 5 props received and B has 2. -/
def oracleGood : Oracle where
  getCurrentPropsId := fun _ => Except.ok (some 3)
  getPropsById := fun _ _ => Except.ok (some pdAB)
  getUserStats := fun a _ =>
    if a = "A" then Except.ok (some ⟨5, 1⟩) else Except.ok (some ⟨2, 1⟩)
  getUserHistory := fun _ _ => Except.ok [0, 1, 2]

/-- The report oracleGood produces: A ranked 1, B ranked 2. -/
def rowsGood : List LeaderboardUser :=
  [⟨"A", 5, 1, 1⟩, ⟨"B", 2, 1, 2⟩]

/-- Witness for C5 on oracleGood: the concrete report is sorted
descending, agrees with the stats list on every metric value (shown at
5), and ranks start at 1. -/
theorem leaderboard_ranking_witness :
    loadLeaderboard oracleGood = Except.ok rowsGood ∧
    rowsGood.Pairwise (fun a b => b.propsReceived ≤ a.propsReceived) ∧
    ((rowsGood.map stripRank).filter fun u => u.propsReceived == 5) =
      ((leaderboardPreSort oracleGood).filter fun u => u.propsReceived == 5) ∧
    (rowsGood.get ⟨0, by decide⟩).rank = 0 + 1 := by
  have h1 : loadLeaderboard oracleGood =
      Except.ok (assignRanks (sortByReceived [⟨"A", 5, 1⟩, ⟨"B", 2, 1⟩])) := rfl
  have h2 : sortByReceived [(⟨"A", 5, 1⟩ : UserStat), ⟨"B", 2, 1⟩] =
      [⟨"A", 5, 1⟩, ⟨"B", 2, 1⟩] := by
    apply List.mergeSort_of_sorted
    simp [List.pairwise_cons, byReceivedDesc]
  have hload : loadLeaderboard oracleGood = Except.ok rowsGood := by
    rw [h1, h2]
    rfl
  have h := leaderboard_ranking oracleGood rowsGood hload
  exact ⟨hload, h.1, h.2.1 5, h.2.2 0 (by decide)⟩
